import Mathlib

/-!
Verification of the photo-comparison repository (`rdn_photo_comparison.py` and
`verification_app.py`) against its natural-language specification.

The Python code is shallowly embedded: numpy pixel arrays become `Img`
structures over `ℚ` (the standard exact-arithmetic model of the float/uint8
pipeline), fallible library calls become `Option`-valued functions, and the
Streamlit session dictionary becomes an explicit state record.  Machine
floating point is modelled by exact rational arithmetic; every claim settled
here is insensitive to rounding (identity of equal pipelines, symmetry,
control flow on exact thresholds).
-/

set_option maxHeartbeats 1000000

namespace PhotoCmp

/-- A decoded image: a numpy pixel array.  `ch = 1` encodes a 2-D (single
channel) array, as produced by `np.array` on a PIL image in mode `L` or `P`;
`ch = 2, 3, 4` encode `(h, w, ch)` arrays (`LA`, `RGB`, `RGBA`). Pixel
samples are modelled as exact rationals. -/
structure Img where
  h : ℕ
  w : ℕ
  ch : ℕ
  px : ℕ → ℕ → ℕ → ℚ

/-- Channel swap 0 ↔ 2, the effect of `cv2.cvtColor(..., COLOR_RGB2BGR)`
(and of `COLOR_BGR2RGB`, which is the same permutation). -/
def swap02 (I : Img) : Img :=
  ⟨I.h, I.w, I.ch, fun r c k =>
    if k = 0 then I.px r c 2 else if k = 2 then I.px r c 0 else I.px r c k⟩

/-- Lines 38-41 of `rdn_photo_comparison.py`: RGB→BGR conversion is applied
only to 3-channel arrays (`len(shape) == 3 and shape[2] == 3`). -/
def convBGR (I : Img) : Img :=
  if I.ch = 3 then swap02 I else I

/-- Clamp an integer coordinate into `[0, n-1]`, the border handling of
`cv2.resize`. -/
def clampI (n : ℕ) (i : ℤ) : ℕ :=
  if i < 0 then 0 else if (n : ℤ) - 1 < i then n - 1 else i.toNat

/-- Bilinear interpolation of one channel, the `cv2.resize` default
(`INTER_LINEAR`) source-coordinate mapping `src = (dst + 1/2)·scale - 1/2`. -/
def bilinear (src : ℕ → ℕ → ℚ) (h0 w0 H W : ℕ) (r c : ℕ) : ℚ :=
  let fy : ℚ := ((r : ℚ) + 1/2) * h0 / H - 1/2
  let fx : ℚ := ((c : ℚ) + 1/2) * w0 / W - 1/2
  let y0 : ℤ := ⌊fy⌋
  let x0 : ℤ := ⌊fx⌋
  let dy : ℚ := fy - y0
  let dx : ℚ := fx - x0
  (1 - dy) * ((1 - dx) * src (clampI h0 y0) (clampI w0 x0)
              + dx * src (clampI h0 y0) (clampI w0 (x0 + 1)))
  + dy * ((1 - dx) * src (clampI h0 (y0 + 1)) (clampI w0 x0)
          + dx * src (clampI h0 (y0 + 1)) (clampI w0 (x0 + 1)))

/-- `cv2.resize(img, (W, H))`: a fresh array of the requested size, every
channel interpolated bilinearly. -/
def resizeImg (I : Img) (H W : ℕ) : Img :=
  ⟨H, W, I.ch, fun r c k => bilinear (fun a b => I.px a b k) I.h I.w H W r c⟩

/-- The grayscale image produced by `cv2.cvtColor(..., COLOR_BGR2GRAY)`
from a BGR array: `0.114·B + 0.587·G + 0.299·R` (ITU-R 601 luma). -/
def grayImg (I : Img) : Img :=
  ⟨I.h, I.w, 1, fun r c _ =>
    (114 * I.px r c 0 + 587 * I.px r c 1 + 299 * I.px r c 2) / 1000⟩

/-- `cv2.cvtColor(..., COLOR_BGR2GRAY)` accepts only 3- or 4-channel input
arrays (`CvtHelper<Set<3,4>, ...>`); on a 2-D array or an `LA` array it
throws, which `compare_images` turns into its failure return. -/
def bgr2gray (I : Img) : Option Img :=
  if I.ch = 3 ∨ I.ch = 4 then some (grayImg I) else none

/-- Final `cv2.cvtColor(..., COLOR_BGR2RGB)` on the displayed images:
swaps channels 0 and 2 on 3- or 4-channel arrays. -/
def bgr2rgbOut (I : Img) : Img :=
  if 3 ≤ I.ch then swap02 I else I

/-! ### The SSIM computation

`skimage.metrics.structural_similarity(gray1, gray2, full=True)` with its
defaults for `uint8` input: `win_size = 7`, uniform (non-Gaussian) windows,
`data_range = 255`, `K1 = 0.01`, `K2 = 0.03`, sample covariance
normalisation `49/48`, and `scipy.ndimage.uniform_filter` boundary mode
`reflect`. -/

/-- `scipy.ndimage` boundary mode `reflect` (`d c b a | a b c d | d c b a`),
for overhang at most `n` (always the case here: pad 3, `n ≥ 7`). -/
def reflectIdx (n : ℕ) (i : ℤ) : ℕ :=
  if i < 0 then (-i - 1).toNat
  else if (n : ℤ) ≤ i then (2 * n - 1 - i).toNat
  else i.toNat

/-- Sum of a 7×7 window centred at `(r, c)` with reflected boundary. -/
def winSum (f : ℕ → ℕ → ℚ) (h w : ℕ) (r c : ℕ) : ℚ :=
  ∑ dy ∈ Finset.range 7, ∑ dx ∈ Finset.range 7,
    f (reflectIdx h ((r : ℤ) + dy - 3)) (reflectIdx w ((c : ℤ) + dx - 3))

/-- `scipy.ndimage.uniform_filter` with size 7: local window mean. -/
def uf (f : ℕ → ℕ → ℚ) (h w : ℕ) (r c : ℕ) : ℚ :=
  winSum f h w r c / 49

/-- One entry of the full SSIM map `S`: local means, sample (co)variances
with normalisation `49/48`, stabilisers `C1 = (0.01·255)²`,
`C2 = (0.03·255)²`. -/
def ssimMap (x y : ℕ → ℕ → ℚ) (h w : ℕ) (r c : ℕ) : ℚ :=
  let ux := uf x h w r c
  let uy := uf y h w r c
  let uxx := uf (fun a b => x a b * x a b) h w r c
  let uyy := uf (fun a b => y a b * y a b) h w r c
  let uxy := uf (fun a b => x a b * y a b) h w r c
  let vx := (49 / 48) * (uxx - ux * ux)
  let vy := (49 / 48) * (uyy - uy * uy)
  let vxy := (49 / 48) * (uxy - ux * uy)
  ((2 * ux * uy + 2601 / 400) * (2 * vxy + 23409 / 400)) /
    ((ux * ux + uy * uy + 2601 / 400) * (vx + vy + 23409 / 400))

/-- The scalar SSIM score: mean of the map cropped by `pad = 3` on
each side. -/
def mssim (x y : ℕ → ℕ → ℚ) (h w : ℕ) : ℚ :=
  (∑ r ∈ Finset.Ico 3 (h - 3), ∑ c ∈ Finset.Ico 3 (w - 3), ssimMap x y h w r c) /
    (((h - 6 : ℕ) : ℚ) * ((w - 6 : ℕ) : ℚ))

/-- Grayscale pixel accessor. -/
def px0 (I : Img) : ℕ → ℕ → ℚ := fun r c => I.px r c 0

/-- `structural_similarity(g1, g2, full=True)`: raises (here: `none`) when
the shapes differ or when the 7×7 window exceeds the image extent;
otherwise returns the scalar score and the full uncropped map. -/
def ssimFull (g1 g2 : Img) : Option (ℚ × (ℕ → ℕ → ℚ)) :=
  if g1.h = g2.h ∧ g1.w = g2.w then
    if 7 ≤ g1.h ∧ 7 ≤ g1.w then
      some (mssim (px0 g1) (px0 g2) g1.h g1.w, ssimMap (px0 g1) (px0 g2) g1.h g1.w)
    else none
  else none

/-! ### Difference extraction: threshold, contours, rectangles -/

/-- Truncation toward zero, the C float→integer cast used by
`.astype("uint8")`. -/
def truncQ (q : ℚ) : ℤ := if 0 ≤ q then ⌊q⌋ else ⌈q⌉

/-- `(diff * 255).astype("uint8")`.  In-range values truncate toward zero;
out-of-range behaviour (never reached in the claims settled here) is
modelled as wrap mod 256 after clamping negatives. -/
def toU8 (q : ℚ) : ℕ := (truncQ q).toNat % 256

/-- Histogram of an 8-bit image over its `h × w` extent, as computed by
`cv2.threshold(..., THRESH_OTSU)`. -/
def otsuHist (f : ℕ → ℕ → ℕ) (h w v : ℕ) : ℕ :=
  ((Finset.range h ×ˢ Finset.range w).filter (fun p => f p.1 p.2 = v)).card

/-- Loop state of OpenCV's `getThreshVal_Otsu_8u`. -/
structure OtsuState where
  q1 : ℚ
  mu1 : ℚ
  maxSigma : ℚ
  maxVal : ℕ

/-- One iteration of OpenCV's Otsu loop, transcribed from
`thresh.cpp`: incremental class probability `q1`, class mean `mu1`,
between-class variance `sigma`; bins with a degenerate split
(`min(q1,q2) < FLT_EPSILON` or `max(q1,q2) > 1 - FLT_EPSILON`, with
`FLT_EPSILON = 2⁻²³`) are skipped. -/
def otsuStep (histv : ℕ → ℕ) (scale mu : ℚ) (st : OtsuState) (i : ℕ) : OtsuState :=
  let p_i : ℚ := (histv i : ℚ) * scale
  let mu1a := st.mu1 * st.q1
  let q1' := st.q1 + p_i
  let q2 := 1 - q1'
  if min q1' q2 < 1 / 8388608 ∨ 1 - 1 / 8388608 < max q1' q2 then
    { st with q1 := q1', mu1 := mu1a }
  else
    let mu1' := (mu1a + (i : ℚ) * p_i) / q1'
    let mu2 := (mu - q1' * mu1') / q2
    let sigma := q1' * q2 * (mu1' - mu2) * (mu1' - mu2)
    if st.maxSigma < sigma then ⟨q1', mu1', sigma, i⟩
    else { st with q1 := q1', mu1 := mu1' }

/-- `scale = 1/(width*height)` of the Otsu computation. -/
def otsuScale (h w : ℕ) : ℚ := 1 / ((h * w : ℕ) : ℚ)

/-- The global mean `mu` of the Otsu computation. -/
def otsuMu (f : ℕ → ℕ → ℕ) (h w : ℕ) : ℚ :=
  otsuScale h w * ∑ i ∈ Finset.range 256, (i : ℚ) * (otsuHist f h w i : ℚ)

/-- The final state of the 256-bin Otsu loop. -/
def otsuFinal (f : ℕ → ℕ → ℕ) (h w : ℕ) : OtsuState :=
  (List.range 256).foldl (otsuStep (otsuHist f h w) (otsuScale h w) (otsuMu f h w))
    ⟨0, 0, 0, 0⟩

/-- Projection of the returned threshold out of the loop state. -/
def stateMaxVal (st : OtsuState) : ℕ := st.maxVal

/-- The Otsu threshold of `cv2.threshold(diff, 0, 255,
THRESH_BINARY_INV | THRESH_OTSU)`: the `max_val` of the final loop state. -/
def otsuThreshold (f : ℕ → ℕ → ℕ) (h w : ℕ) : ℕ :=
  stateMaxVal (otsuFinal f h w)

/-- The nonzero cells of the binarised difference mask, row-major. -/
def maskCells (mask : ℕ → ℕ → ℕ) (h w : ℕ) : List (ℕ × ℕ) :=
  (List.range h).flatMap fun r =>
    (List.range w).filterMap fun c => if mask r c ≠ 0 then some (r, c) else none

/-- 8-neighbourhood adjacency of grid cells, the connectivity of
`cv2.findContours`. -/
def adj8 (p q : ℕ × ℕ) : Bool :=
  decide (max p.1 q.1 - min p.1 q.1 ≤ 1) && decide (max p.2 q.2 - min p.2 q.2 ≤ 1)
    && !(decide (p = q))

/-- Fuelled flood fill: extend `comp` by all cells adjacent to it. -/
def growComp (cells : List (ℕ × ℕ)) : ℕ → List (ℕ × ℕ) → List (ℕ × ℕ)
  | 0, comp => comp
  | fuel + 1, comp =>
    let add := cells.filter fun p => !(comp.contains p) && comp.any (adj8 p)
    if add.isEmpty then comp else growComp cells fuel (comp ++ add)

/-- Peel off connected components one by one. -/
def componentsAux : ℕ → List (ℕ × ℕ) → List (List (ℕ × ℕ))
  | 0, _ => []
  | _, [] => []
  | fuel + 1, p :: rest =>
    let comp := growComp (p :: rest) (p :: rest).length [p]
    comp :: componentsAux fuel (rest.filter fun q => !(comp.contains q))

/-- The connected components of the nonzero mask cells: the regions whose
outer contours `cv2.findContours(..., RETR_EXTERNAL, ...)` traces. -/
def components (cells : List (ℕ × ℕ)) : List (List (ℕ × ℕ)) :=
  componentsAux cells.length cells

/-- An axis-aligned bounding rectangle, as from `cv2.boundingRect`. -/
structure Rect where
  x : ℕ
  y : ℕ
  w : ℕ
  h : ℕ
deriving DecidableEq

/-- Bounding rectangle of a component (cells are `(row, col)`). -/
def bbox (comp : List (ℕ × ℕ)) : Rect :=
  let rs := comp.map Prod.fst
  let cs := comp.map Prod.snd
  let y := rs.foldr min (rs.headD 0)
  let x := cs.foldr min (cs.headD 0)
  let y1 := rs.foldr max 0
  let x1 := cs.foldr max 0
  ⟨x, y, x1 - x, y1 - y⟩

/-- Lines 62-69 of `rdn_photo_comparison.py`: bounding rectangles of the
difference contours whose area exceeds 100 (`cv2.contourArea`, modelled as
the pixel count of the filled component; the claims settled here depend
only on whether any region exists at all). -/
def diffRegions (mask : ℕ → ℕ → ℕ) (h w : ℕ) : List Rect :=
  (components (maskCells mask h w)).filterMap fun comp =>
    if 100 < comp.length then some (bbox comp) else none

/-- Is `(r, c)` on the thickness-2 border drawn by
`cv2.rectangle(img, (x, y), (x+w, y+h), (0,0,255), 2)`? -/
def onRectBorder (R : Rect) (r c : ℕ) : Bool :=
  let nearRow := decide (R.y ≤ r + 1 ∧ r ≤ R.y + 1) || decide (R.y + R.h ≤ r + 1 ∧ r ≤ R.y + R.h + 1)
  let nearCol := decide (R.x ≤ c + 1 ∧ c ≤ R.x + 1) || decide (R.x + R.w ≤ c + 1 ∧ c ≤ R.x + R.w + 1)
  (nearRow && decide (R.x ≤ c + 1 ∧ c ≤ R.x + R.w + 1)) ||
    (nearCol && decide (R.y ≤ r + 1 ∧ r ≤ R.y + R.h + 1))

/-- Draw one red (BGR `(0,0,255)`) rectangle border onto an image copy. -/
def drawRect (I : Img) (R : Rect) : Img :=
  { I with px := fun r c k =>
      if onRectBorder R r c then
        if k = 0 then 0 else if k = 1 then 0 else if k = 2 then 255 else I.px r c k
      else I.px r c k }

/-- Draw all difference rectangles onto `image2.copy()`. -/
def drawRegions (I : Img) (regions : List Rect) : Img :=
  regions.foldl drawRect I

/-- The successful return value of `compare_images`: the score, the
(internal) difference-region list, and the three RGB output images. -/
structure CompareOk where
  score : ℚ
  regions : List Rect
  img1 : Img
  img2 : Img
  annotated : Img

/-- `min` of the two (colour-converted) heights — line 44. -/
def minHeight (A B : Img) : ℕ := min (convBGR A).h (convBGR B).h

/-- `min` of the two (colour-converted) widths — line 45. -/
def minWidth (A B : Img) : ℕ := min (convBGR A).w (convBGR B).w

/-- `image1` after colour conversion and resize — lines 38-48. -/
def resized1 (A B : Img) : Img :=
  resizeImg (convBGR A) (minHeight A B) (minWidth A B)

/-- `image2` after colour conversion and resize — lines 38-48. -/
def resized2 (A B : Img) : Img :=
  resizeImg (convBGR B) (minHeight A B) (minWidth A B)

/-- Lines 56-76 of `rdn_photo_comparison.py`: scale the SSIM map to 8 bits,
Otsu-binarise it inverted, trace contours, keep areas above 100, draw them
on a copy of the second image, convert everything back to RGB. -/
def postprocess (r1 r2 : Img) (score : ℚ) (S : ℕ → ℕ → ℚ) (h w : ℕ) : CompareOk :=
  let diffU8 : ℕ → ℕ → ℕ := fun r c => toU8 (S r c * 255)
  let th := otsuThreshold diffU8 h w
  let mask : ℕ → ℕ → ℕ := fun r c => if th < diffU8 r c then 0 else 255
  let regions := diffRegions mask h w
  ⟨score, regions, bgr2rgbOut r1, bgr2rgbOut r2, bgr2rgbOut (drawRegions r2 regions)⟩

/-- `compare_images` (lines 28-79): the whole pipeline inside one
`try/except`; any library exception (empty resize target, wrong channel
count in `cvtColor`, SSIM window larger than the image) yields the failure
return `(None, None, None, None)`, modelled as `none`. -/
def compare_images (A B : Img) : Option CompareOk :=
  if minHeight A B = 0 ∨ minWidth A B = 0 then none
  else
    (bgr2gray (resized1 A B)).bind fun g1 =>
      (bgr2gray (resized2 A B)).bind fun g2 =>
        (ssimFull g1 g2).map fun sf =>
          postprocess (resized1 A B) (resized2 A B) sf.1 sf.2
            (minHeight A B) (minWidth A B)

/-- The scalar score component of a comparison. -/
def compareScore (A B : Img) : Option ℚ :=
  (compare_images A B).map (fun r => r.score)

/-! ### Display classifier and batch mode -/

/-- `get_similarity_class` (lines 81-88). -/
def get_similarity_class (score : ℚ) : String :=
  if 4/5 < score then "similarity-high"
  else if 3/5 < score then "similarity-medium"
  else "similarity-low"

/-- The batch match cutoff `score > 0.75` (line 216). -/
def isBatchMatch (score : ℚ) : Bool := decide (3/4 < score)

/-- Keys of the Python dict `{basename(f.name): f for f in files}` (order
is irrelevant here: only the sorted intersection is ever consumed). -/
def dictKeys (l : List (String × Img)) : List String :=
  (l.map Prod.fst).dedup

/-- Dict lookup: the value of the *last* binding of a key. -/
def dictGet (l : List (String × Img)) (k : String) : Option Img :=
  List.lookup k l.reverse

/-- `sorted(set(ref_dict) & set(field_dict))` (lines 196 and 204). -/
def sortedCommon (refs fields : List (String × Img)) : List String :=
  List.insertionSort (· ≤ ·)
    ((dictKeys refs).filter fun n => decide (n ∈ dictKeys fields))

/-- One collected batch record (lines 213-218). -/
structure BatchEntry where
  filename : String
  score : ℚ
  isMatch : Bool
deriving DecidableEq

/-- The body of the batch loop for one common filename: compare, and keep a
record only when the comparison did not fail (`if score is not None`). -/
def batchEntryFor (refs fields : List (String × Img)) (name : String) : Option BatchEntry :=
  (dictGet refs name).bind fun ri =>
    (dictGet fields name).bind fun fi =>
      (compare_images ri fi).map fun res => ⟨name, res.score, isBatchMatch res.score⟩

/-- Did the comparison for this common filename succeed? -/
def pairSucceeds (refs fields : List (String × Img)) (name : String) : Bool :=
  (batchEntryFor refs fields name).isSome

/-- The `results` list collected by the batch loop (lines 202-218). -/
def batchResults (refs fields : List (String × Img)) : List BatchEntry :=
  (sortedCommon refs fields).filterMap (batchEntryFor refs fields)

/-- `matched = sum(1 for r in results if r['match'])` (line 224). -/
def batchMatched (refs fields : List (String × Img)) : ℕ :=
  ((batchResults refs fields).filter fun e => e.isMatch).length

/-- `total = len(results)` (line 225). -/
def batchTotal (refs fields : List (String × Img)) : ℕ :=
  (batchResults refs fields).length

/-- Lines 198-232: with no common filename the batch branch only reports an
error; otherwise the summary — including the unguarded percentage
`matched/total*100` — is computed unconditionally. -/
def batchSummary (refs fields : List (String × Img)) : Option (ℕ × ℕ × ℚ) :=
  if sortedCommon refs fields = [] then none
  else
    some (batchTotal refs fields, batchMatched refs fields,
      ((batchMatched refs fields : ℚ) / (batchTotal refs fields : ℚ)) * 100)

/-! ### `verification_app.py`: file pairing -/

/-- A file's role in a pair. -/
inductive Role
  | original
  | proofShot
deriving DecidableEq

/-- `'_original'` as a character list. -/
def markerOriginal : List Char := '_' :: 'o' :: 'r' :: 'i' :: 'g' :: 'i' :: 'n' :: 'a' :: 'l' :: []

/-- `'_proof'` as a character list. -/
def markerProof : List Char := '_' :: 'p' :: 'r' :: 'o' :: 'o' :: 'f' :: []

/-- Python substring containment `pat in s`. -/
def hasSub (pat : List Char) : List Char → Bool
  | [] => pat.isEmpty
  | c :: rest => pat.isPrefixOf (c :: rest) || hasSub pat rest

/-- `s.split(pat)[0]`: the characters before the first occurrence of `pat`
(the whole string when `pat` does not occur). -/
def beforeFirst (pat : List Char) : List Char → List Char
  | [] => []
  | c :: rest =>
    if pat.isPrefixOf (c :: rest) then [] else c :: beforeFirst pat rest

/-- `file.lower().endswith(('.png', '.jpg', '.jpeg'))` (line 29):
case-fold the characters, then match any of the three suffixes. -/
def isImageFile (f : String) : Bool :=
  let l := f.data.map Char.toLower
  ('.' :: 'p' :: 'n' :: 'g' :: []).isSuffixOf l
    || ('.' :: 'j' :: 'p' :: 'g' :: []).isSuffixOf l
    || ('.' :: 'j' :: 'p' :: 'e' :: 'g' :: []).isSuffixOf l

/-- Lines 29-35 of `verification_app.py`: a listed file is classified into
at most one role — image extension required, `'_original'` checked before
`'_proof'` (if/elif), identifier = the part before the first marker. -/
def classify (f : String) : Option (String × Role) :=
  if isImageFile f then
    if hasSub markerOriginal f.data then
      some (⟨beforeFirst markerOriginal f.data⟩, Role.original)
    else if hasSub markerProof f.data then
      some (⟨beforeFirst markerProof f.data⟩, Role.proofShot)
    else none
  else none

/-- The per-identifier record built by `image_pairs.setdefault(base_id, {})`. -/
structure RawPair where
  original : Option String
  proofShot : Option String
deriving DecidableEq

/-- Store a classified file under its role (later files with the same
identifier and role overwrite, as a dict assignment does). -/
def setRole (e : RawPair) (ro : Role) (f : String) : RawPair :=
  match ro with
  | Role.original => { e with original := some f }
  | Role.proofShot => { e with proofShot := some f }

/-- Insertion-ordered dict update `image_pairs.setdefault(id, {})[role] = f`. -/
def insertClassified (m : List (String × RawPair)) (id : String) (ro : Role)
    (f : String) : List (String × RawPair) :=
  match m with
  | [] => [(id, setRole ⟨none, none⟩ ro f)]
  | (k, e) :: rest =>
    if k = id then (k, setRole e ro f) :: rest
    else (k, e) :: insertClassified rest id ro f

/-- The `image_pairs` dict after the classification loop (lines 28-35). -/
def buildPairs (files : List String) : List (String × RawPair) :=
  files.foldl (fun m f =>
    match classify f with
    | some (id, ro) => insertClassified m id ro f
    | none => m) []

/-- `os.path.join(folder, file)` for a relative `file`. -/
def pathJoin (a b : String) : String :=
  if ('/' :: []).isSuffixOf a.data then a ++ b else a ++ "/" ++ b

/-- A complete original/proof pair (one element of `valid_pairs`). -/
structure ImagePair where
  id : String
  original : String
  proofShot : String
deriving DecidableEq

/-- `get_image_pairs` (lines 22-47): classify the folder listing, keep only
identifiers that have both an original and a proof file, and attach full
paths. -/
def get_image_pairs (folder : String) (files : List String) : List ImagePair :=
  (buildPairs files).filterMap fun ke =>
    match ke.2.original, ke.2.proofShot with
    | some o, some p => some ⟨ke.1, pathJoin folder o, pathJoin folder p⟩
    | _, _ => none

/-! ### `verification_app.py`: session state machine -/

/-- A human decision (the three buttons, lines 128-155). -/
inductive Decision
  | yes
  | no
  | noDecision
deriving DecidableEq

/-- One appended decision record (lines 129-133). -/
structure DecisionRecord where
  property_id : String
  decision : Decision
  timestamp : String
deriving DecidableEq

/-- `st.session_state.verification_data` (lines 57-64). -/
structure VState where
  current_pair : ℕ
  decisions : List DecisionRecord
  image_pairs : List ImagePair
  verification_complete : Bool
  folder_path : Option String
deriving DecidableEq

/-- Lines 70-77: supplying a new folder path resets the cursor to 0, clears
the log, and re-derives the pair list from the folder listing. -/
def resetState (folder : String) (files : List String) : VState :=
  ⟨0, [], get_image_pairs folder files, false, some folder⟩

/-- Pressing any decision button (lines 128-155): guarded by the button
being rendered at all, i.e. by `current_pair < len(image_pairs)`; appends
exactly one record carrying the current pair's identifier and advances the
cursor by one.  The decision value only lands in the record. -/
def recordDecision (s : VState) (d : Decision) (t : String) : VState :=
  if h : s.current_pair < s.image_pairs.length then
    { s with
      decisions := s.decisions ++ [⟨(s.image_pairs.get ⟨s.current_pair, h⟩).id, d, t⟩],
      current_pair := s.current_pair + 1 }
  else s

/-- Lines 92-93 of the next script rerun: the completion flag is set
exactly when the cursor has reached the pair count. -/
def checkComplete (s : VState) : VState :=
  if s.image_pairs.length ≤ s.current_pair then
    { s with verification_complete := true }
  else s

/-- One full button-press interaction: record, then the `st.rerun()`
pass that re-evaluates the completion check. -/
def vstep (s : VState) (d : Decision) (t : String) : VState :=
  checkComplete (recordDecision s d t)

/-- A whole review session: one `vstep` per supplied decision. -/
def runSession (s : VState) (inputs : List (Decision × String)) : VState :=
  inputs.foldl (fun st dt => vstep st dt.1 dt.2) s

/-- The log a completed session is expected to hold: one record per pair,
in pair order, carrying the supplied decisions and timestamps. -/
def expectedLog (pairs : List ImagePair) (inputs : List (Decision × String)) :
    List DecisionRecord :=
  (pairs.zip inputs).map fun pi => ⟨pi.1.id, pi.2.1, pi.2.2⟩

/-! ### Concrete instances used in the claim witnesses -/

/-- A 7×7 3-channel colour image (all pixels equal). -/
def colorOk : Img := ⟨7, 7, 3, fun _ _ _ => 0⟩

/-- An 8×8 single-channel (2-D) grayscale array, as `np.array` yields for a
decoded grayscale image. -/
def gray8 : Img := ⟨8, 8, 1, fun _ _ _ => 0⟩

/-- A 9×9 single-channel (2-D) grayscale array. -/
def gray9 : Img := ⟨9, 9, 1, fun _ _ _ => 1/2⟩

/-- A 5×5 3-channel colour image: smaller than the 7×7 SSIM window. -/
def tinyColor : Img := ⟨5, 5, 3, fun _ _ _ => 0⟩

/-- An 8×8 2-channel array (PIL mode `LA`). -/
def imgLA : Img := ⟨8, 8, 2, fun _ _ _ => 0⟩

/-- Reference collection with identifiers {A, B, C}. -/
def refsABC : List (String × Img) := [("A", colorOk), ("B", colorOk), ("C", colorOk)]

/-- Field collection with identifiers {B, C, D}. -/
def fieldsBCD : List (String × Img) := [("B", colorOk), ("C", colorOk), ("D", colorOk)]

/-- A reference collection whose only image is undecodable by the
pipeline (2-D grayscale). -/
def refsBad : List (String × Img) := [("x", gray9)]

/-- The matching field collection, equally undecodable. -/
def fieldsBad : List (String × Img) := [("x", gray9)]

/-- A folder listing with one complete pair (`12`), one junk file, and one
original without proof (`88`). -/
def files6 : List String :=
  ["12_original.png", "12_proof.jpeg", "readme.md", "88_original_proof.png"]

/-- One decision per valid pair of `files6`. -/
def inputs6 : List (Decision × String) := [(Decision.yes, "t1")]

/-- A session state whose cursor has reached its single pair. -/
def doneState : VState :=
  ⟨1, [], [⟨"a", "d/a_original.png", "d/a_proof.png"⟩], false, some "d"⟩

/-- The one complete pair produced from `files6`. -/
def pair12 : ImagePair := ⟨"12", pathJoin "d" "12_original.png", pathJoin "d" "12_proof.jpeg"⟩

/-! ### Lemmas about the SSIM core -/

/-- Cauchy–Schwarz over a 7×7 index grid: the square of a window sum is at
most 49 times the window sum of squares. -/
lemma nested_cs (g : ℕ → ℕ → ℚ) :
    (∑ dy ∈ Finset.range 7, ∑ dx ∈ Finset.range 7, g dy dx) ^ 2 ≤
      49 * ∑ dy ∈ Finset.range 7, ∑ dx ∈ Finset.range 7, g dy dx ^ 2 := by
  have key := sq_sum_le_card_mul_sum_sq
    (s := Finset.range 7 ×ˢ Finset.range 7) (f := fun p => g p.1 p.2)
  rw [Finset.card_product, Finset.card_range] at key
  rw [Finset.sum_product] at key
  rw [Finset.sum_product] at key
  simpa using key

/-- Cauchy–Schwarz for a 7×7 window: the squared window mean is at most the
window mean of squares, so every local sample variance is nonnegative. -/
lemma uf_sq_le (x : ℕ → ℕ → ℚ) (h w r c : ℕ) :
    uf x h w r c * uf x h w r c ≤ uf (fun a b => x a b * x a b) h w r c := by
  unfold uf winSum
  have key := nested_cs
    (fun dy dx => x (reflectIdx h ((r : ℤ) + dy - 3)) (reflectIdx w ((c : ℤ) + dx - 3)))
  have hs :
      (∑ dy ∈ Finset.range 7, ∑ dx ∈ Finset.range 7,
        (fun a b => x a b * x a b) (reflectIdx h ((r : ℤ) + dy - 3))
          (reflectIdx w ((c : ℤ) + dx - 3))) =
      ∑ dy ∈ Finset.range 7, ∑ dx ∈ Finset.range 7,
        (fun dy dx => x (reflectIdx h ((r : ℤ) + dy - 3))
          (reflectIdx w ((c : ℤ) + dx - 3))) dy dx ^ 2 := by
    refine Finset.sum_congr rfl fun dy _ => Finset.sum_congr rfl fun dx _ => ?_
    simp [sq]
  rw [hs, div_mul_div_comm, div_le_div_iff₀ (by norm_num) (by norm_num)]
  nlinarith [key]

/-- On a pair of identical inputs every entry of the SSIM map is exactly 1:
the numerator and denominator coincide and the denominator is positive
(the stabilisers are positive and the sample variance is nonnegative). -/
lemma ssimMap_self (x : ℕ → ℕ → ℚ) (h w r c : ℕ) : ssimMap x x h w r c = 1 := by
  have hvx := uf_sq_le x h w r c
  simp only [ssimMap]
  set ux := uf x h w r c with hux
  set uxx := uf (fun a b => x a b * x a b) h w r c with huxx
  rw [div_eq_one_iff_eq]
  · ring
  · have h1 : (0 : ℚ) < ux * ux + ux * ux + 2601 / 400 := by nlinarith [mul_self_nonneg ux]
    have h2 : (0 : ℚ) <
        49 / 48 * (uxx - ux * ux) + 49 / 48 * (uxx - ux * ux) + 23409 / 400 := by
      nlinarith
    exact ne_of_gt (mul_pos h1 h2)

/-- Identical inputs give scalar score exactly 1 (the cropped mean of an
all-ones map, well-defined because both dimensions are at least 7). -/
lemma mssim_self (x : ℕ → ℕ → ℚ) (h w : ℕ) (hh : 7 ≤ h) (hw : 7 ≤ w) :
    mssim x x h w = 1 := by
  unfold mssim
  have hsum :
      (∑ r ∈ Finset.Ico 3 (h - 3), ∑ c ∈ Finset.Ico 3 (w - 3), ssimMap x x h w r c) =
      ((h - 6 : ℕ) : ℚ) * ((w - 6 : ℕ) : ℚ) := by
    simp only [ssimMap_self]
    rw [Finset.sum_const, Finset.sum_const, Nat.card_Ico, Nat.card_Ico]
    have e1 : h - 3 - 3 = h - 6 := by omega
    have e2 : w - 3 - 3 = w - 6 := by omega
    rw [e1, e2]
    simp [mul_comm]
  rw [hsum, div_self]
  have e1 : (h - 6 : ℕ) ≠ 0 := by omega
  have e2 : (w - 6 : ℕ) ≠ 0 := by omega
  exact mul_ne_zero (Nat.cast_ne_zero.mpr e1) (Nat.cast_ne_zero.mpr e2)

/-- Every entry of the SSIM map is symmetric in the two inputs. -/
lemma ssimMap_symm (x y : ℕ → ℕ → ℚ) (h w r c : ℕ) :
    ssimMap x y h w r c = ssimMap y x h w r c := by
  have hxy : (fun a b => x a b * y a b) = (fun a b => y a b * x a b) := by
    funext a b; ring
  simp only [ssimMap, hxy]
  ring

/-- The scalar SSIM score is symmetric in the two inputs. -/
lemma mssim_symm (x y : ℕ → ℕ → ℚ) (h w : ℕ) : mssim x y h w = mssim y x h w := by
  unfold mssim
  congr 1
  exact Finset.sum_congr rfl fun r _ =>
    Finset.sum_congr rfl fun c _ => ssimMap_symm x y h w r c

/-! ### Plumbing lemmas for the comparison pipeline -/

@[simp] lemma convBGR_h (I : Img) : (convBGR I).h = I.h := by
  unfold convBGR; split <;> rfl

@[simp] lemma convBGR_w (I : Img) : (convBGR I).w = I.w := by
  unfold convBGR; split <;> rfl

@[simp] lemma convBGR_ch (I : Img) : (convBGR I).ch = I.ch := by
  unfold convBGR; split <;> rfl

@[simp] lemma bgr2rgbOut_h (I : Img) : (bgr2rgbOut I).h = I.h := by
  unfold bgr2rgbOut; split <;> rfl

@[simp] lemma bgr2rgbOut_w (I : Img) : (bgr2rgbOut I).w = I.w := by
  unfold bgr2rgbOut; split <;> rfl

lemma minHeight_eq (A B : Img) : minHeight A B = min A.h B.h := by
  unfold minHeight; rw [convBGR_h, convBGR_h]

lemma minWidth_eq (A B : Img) : minWidth A B = min A.w B.w := by
  unfold minWidth; rw [convBGR_w, convBGR_w]

lemma minHeight_comm (A B : Img) : minHeight B A = minHeight A B := by
  rw [minHeight_eq, minHeight_eq, min_comm]

lemma minWidth_comm (A B : Img) : minWidth B A = minWidth A B := by
  rw [minWidth_eq, minWidth_eq, min_comm]

lemma resized1_ch (A B : Img) : (resized1 A B).ch = A.ch := convBGR_ch A

lemma resized2_ch (A B : Img) : (resized2 A B).ch = B.ch := convBGR_ch B

lemma bgr2gray_resized1 (A B : Img) (hA : A.ch = 3 ∨ A.ch = 4) :
    bgr2gray (resized1 A B) = some (grayImg (resized1 A B)) := by
  unfold bgr2gray
  rw [if_pos]
  rw [resized1_ch]
  exact hA

lemma bgr2gray_resized2 (A B : Img) (hB : B.ch = 3 ∨ B.ch = 4) :
    bgr2gray (resized2 A B) = some (grayImg (resized2 A B)) := by
  unfold bgr2gray
  rw [if_pos]
  rw [resized2_ch]
  exact hB

lemma postprocess_img1 (r1 r2 : Img) (sc : ℚ) (S : ℕ → ℕ → ℚ) (h w : ℕ) :
    (postprocess r1 r2 sc S h w).img1 = bgr2rgbOut r1 := rfl

lemma postprocess_img2 (r1 r2 : Img) (sc : ℚ) (S : ℕ → ℕ → ℚ) (h w : ℕ) :
    (postprocess r1 r2 sc S h w).img2 = bgr2rgbOut r2 := rfl

lemma postprocess_score (r1 r2 : Img) (sc : ℚ) (S : ℕ → ℕ → ℚ) (h w : ℕ) :
    (postprocess r1 r2 sc S h w).score = sc := rfl

lemma resized1_h (A B : Img) : (resized1 A B).h = minHeight A B := rfl

lemma resized1_w (A B : Img) : (resized1 A B).w = minWidth A B := rfl

lemma resized2_h (A B : Img) : (resized2 A B).h = minHeight A B := rfl

lemma resized2_w (A B : Img) : (resized2 A B).w = minWidth A B := rfl

/-! ### The Otsu threshold on a constant difference image -/

/-- Histogram of a constant-255 image: all mass in bin 255. -/
lemma otsuHist_const (f : ℕ → ℕ → ℕ) (h w : ℕ)
    (hf : ∀ r c, r < h → c < w → f r c = 255) (v : ℕ) :
    otsuHist f h w v = if v = 255 then h * w else 0 := by
  unfold otsuHist
  split
  case isTrue hv =>
    subst hv
    rw [Finset.filter_true_of_mem, Finset.card_product, Finset.card_range, Finset.card_range]
    intro p hp
    rw [Finset.mem_product, Finset.mem_range, Finset.mem_range] at hp
    exact hf p.1 p.2 hp.1 hp.2
  case isFalse hv =>
    rw [Finset.filter_false_of_mem, Finset.card_empty]
    intro p hp
    rw [Finset.mem_product, Finset.mem_range, Finset.mem_range] at hp
    rw [hf p.1 p.2 hp.1 hp.2]
    exact fun hev => hv hev.symm

/-- Empty bins leave the Otsu loop in its initial state: `q1` stays 0 so
every iteration takes the skip branch. -/
lemma otsu_skip_list (histv : ℕ → ℕ) (scale mu : ℚ) :
    ∀ l : List ℕ, (∀ i ∈ l, histv i = 0) →
      List.foldl (otsuStep histv scale mu) ⟨0, 0, 0, 0⟩ l = ⟨0, 0, 0, 0⟩ := by
  intro l
  induction l with
  | nil => intro _; rfl
  | cons a l ih =>
    intro hall
    rw [List.foldl_cons]
    have ha : histv a = 0 := hall a (List.mem_cons_self a l)
    have hstep : otsuStep histv scale mu ⟨0, 0, 0, 0⟩ a = ⟨0, 0, 0, 0⟩ := by
      simp only [otsuStep, ha, Nat.cast_zero, zero_mul, mul_zero, add_zero, zero_add, sub_zero]
      rw [if_pos (Or.inl (by norm_num [min_def]))]
    rw [hstep]
    exact ih fun i hi => hall i (List.mem_cons_of_mem a hi)

/-- OpenCV's Otsu threshold of a constant-255 image is 0: every split is
degenerate, so `max_val` keeps its initial value. -/
lemma otsu_const255 (f : ℕ → ℕ → ℕ) (h w : ℕ) (hpos : 0 < h * w)
    (hf : ∀ r c, r < h → c < w → f r c = 255) : otsuThreshold f h w = 0 := by
  have hhist := otsuHist_const f h w hf
  have hfe : otsuFinal f h w = ⟨1, 0, 0, 0⟩ := by
    unfold otsuFinal
    have hsplit : List.range 256 = List.range 255 ++ [255] := by
      have hr := List.range_succ (n := 255)
      norm_num at hr
      exact hr
    rw [hsplit, List.foldl_append]
    rw [otsu_skip_list _ _ _ (List.range 255)
      (fun i hi => by rw [hhist i, if_neg (Nat.ne_of_lt (List.mem_range.mp hi))])]
    rw [List.foldl_cons, List.foldl_nil]
    have hfinal : otsuStep (otsuHist f h w) (otsuScale h w) (otsuMu f h w)
      ⟨0, 0, 0, 0⟩ 255 = ⟨1, 0, 0, 0⟩ := by
      have hv : otsuHist f h w 255 = h * w := by rw [hhist]; simp
      have hne : ((h * w : ℕ) : ℚ) ≠ 0 := Nat.cast_ne_zero.mpr hpos.ne'
      have hp1 : ((h * w : ℕ) : ℚ) * otsuScale h w = 1 := by
        unfold otsuScale
        rw [mul_one_div, div_self hne]
      simp only [otsuStep, hv]
      rw [hp1]
      simp only [mul_zero, zero_mul, zero_add, sub_self]
      rw [if_pos (Or.inl (by norm_num [min_def]))]
    rw [hfinal]
  unfold otsuThreshold
  rw [hfe]
  rfl

/-! ### Regions of an all-zero mask -/

lemma maskCells_eq_nil (mask : ℕ → ℕ → ℕ) (h w : ℕ)
    (hm : ∀ r c, r < h → c < w → mask r c = 0) : maskCells mask h w = [] := by
  rw [List.eq_nil_iff_forall_not_mem]
  intro p hp
  unfold maskCells at hp
  rw [List.mem_flatMap] at hp
  obtain ⟨r, hr, hp⟩ := hp
  rw [List.mem_filterMap] at hp
  obtain ⟨c, hc, hpc⟩ := hp
  rw [List.mem_range] at hr
  rw [List.mem_range] at hc
  rw [hm r c hr hc] at hpc
  simp at hpc

lemma diffRegions_nil (mask : ℕ → ℕ → ℕ) (h w : ℕ)
    (hm : ∀ r c, r < h → c < w → mask r c = 0) : diffRegions mask h w = [] := by
  unfold diffRegions
  rw [maskCells_eq_nil mask h w hm]
  rfl

/-- When the SSIM map is identically 1, the 8-bit difference image is
constant 255, the Otsu threshold is 0, the inverted binarisation is all
zeros, no contour exists, and nothing is drawn: the annotated image is the
unmodified copy of the second image. -/
lemma postprocess_uniform (r1 r2 : Img) (score : ℚ) (S : ℕ → ℕ → ℚ) (h w : ℕ)
    (hpos : 0 < h * w) (hS : ∀ r c, S r c = 1) :
    postprocess r1 r2 score S h w =
      ⟨score, [], bgr2rgbOut r1, bgr2rgbOut r2, bgr2rgbOut r2⟩ := by
  have hdiff : ∀ r c, r < h → c < w → toU8 (S r c * 255) = 255 := by
    intro r c _ _
    rw [hS]
    norm_num [toU8, truncQ]
    decide
  have hth : otsuThreshold (fun r c => toU8 (S r c * 255)) h w = 0 :=
    otsu_const255 _ h w hpos hdiff
  have hmask : ∀ r c, r < h → c < w →
      (if otsuThreshold (fun r c => toU8 (S r c * 255)) h w < toU8 (S r c * 255)
        then 0 else 255) = 0 := by
    intro r c hr hc
    rw [hth, hdiff r c hr hc]
    norm_num
  have hreg : diffRegions
      (fun r c => if otsuThreshold (fun r c => toU8 (S r c * 255)) h w < toU8 (S r c * 255)
        then 0 else 255) h w = [] :=
    diffRegions_nil _ h w hmask
  simp only [postprocess]
  rw [hreg]
  rfl

/-! ### The success path of `compare_images` -/

/-- With 3- or 4-channel inputs and a common extent of at least 7×7, every
stage of the pipeline succeeds, and the returned record is the
postprocessing of the two resized images with the SSIM of their grayscale
versions. -/
lemma compare_success (A B : Img) (hA : A.ch = 3 ∨ A.ch = 4) (hB : B.ch = 3 ∨ B.ch = 4)
    (hh : 7 ≤ minHeight A B) (hw : 7 ≤ minWidth A B) :
    compare_images A B = some (postprocess (resized1 A B) (resized2 A B)
      (mssim (px0 (grayImg (resized1 A B))) (px0 (grayImg (resized2 A B)))
        (minHeight A B) (minWidth A B))
      (ssimMap (px0 (grayImg (resized1 A B))) (px0 (grayImg (resized2 A B)))
        (minHeight A B) (minWidth A B))
      (minHeight A B) (minWidth A B)) := by
  unfold compare_images
  rw [if_neg (by push_neg; constructor <;> omega)]
  rw [bgr2gray_resized1 A B hA, bgr2gray_resized2 A B hB]
  have hssim : ssimFull (grayImg (resized1 A B)) (grayImg (resized2 A B)) =
      some (mssim (px0 (grayImg (resized1 A B))) (px0 (grayImg (resized2 A B)))
          (minHeight A B) (minWidth A B),
        ssimMap (px0 (grayImg (resized1 A B))) (px0 (grayImg (resized2 A B)))
          (minHeight A B) (minWidth A B)) := by
    unfold ssimFull
    rw [if_pos ⟨rfl, rfl⟩, if_pos ⟨hh, hw⟩]
    rfl
  rw [Option.some_bind, Option.some_bind, hssim, Option.map_some']

/-- `compare_images` on two identical (3- or 4-channel, at least 7×7)
images: score exactly 1, no difference region, annotated image untouched. -/
lemma compare_self (I : Img) (hch : I.ch = 3 ∨ I.ch = 4) (hh : 7 ≤ I.h) (hw : 7 ≤ I.w) :
    compare_images I I =
      some ⟨1, [], bgr2rgbOut (resized1 I I), bgr2rgbOut (resized1 I I),
        bgr2rgbOut (resized1 I I)⟩ := by
  have hmh : minHeight I I = I.h := by rw [minHeight_eq, min_self]
  have hmw : minWidth I I = I.w := by rw [minWidth_eq, min_self]
  have hstep := compare_success I I hch hch (by rw [hmh]; exact hh) (by rw [hmw]; exact hw)
  rw [hstep]
  have h2 : resized2 I I = resized1 I I := rfl
  rw [h2]
  rw [postprocess_uniform _ _ _ _ _ _
    (by rw [hmh, hmw]; exact Nat.mul_pos (by omega) (by omega))
    (fun r c => ssimMap_self (px0 (grayImg (resized1 I I))) (minHeight I I) (minWidth I I) r c)]
  rw [mssim_self _ _ _ (by rw [hmh]; exact hh) (by rw [hmw]; exact hw)]

/-! ### Symmetry of the score -/

/-- The scalar part of the SSIM call is symmetric in its two arguments
(both the shape checks and the score itself). -/
lemma ssimFull_score_symm (g1 g2 : Img) :
    (ssimFull g1 g2).map Prod.fst = (ssimFull g2 g1).map Prod.fst := by
  unfold ssimFull
  by_cases h1 : g1.h = g2.h ∧ g1.w = g2.w
  · obtain ⟨hh, hw⟩ := h1
    rw [if_pos (show g1.h = g2.h ∧ g1.w = g2.w from ⟨hh, hw⟩)]
    rw [if_pos (show g2.h = g1.h ∧ g2.w = g1.w from ⟨hh.symm, hw.symm⟩)]
    by_cases h2 : 7 ≤ g1.h ∧ 7 ≤ g1.w
    · rw [if_pos h2]
      rw [if_pos (show 7 ≤ g2.h ∧ 7 ≤ g2.w from by rw [← hh, ← hw]; exact h2)]
      rw [Option.map_some', Option.map_some']
      rw [hh, hw, mssim_symm]
    · rw [if_neg h2]
      rw [if_neg (show ¬(7 ≤ g2.h ∧ 7 ≤ g2.w) from by rw [← hh, ← hw]; exact h2)]
  · rw [if_neg h1]
    rw [if_neg (show ¬(g2.h = g1.h ∧ g2.w = g1.w) from fun hc => h1 ⟨hc.1.symm, hc.2.symm⟩)]

/-- Composing the batch record projection with the postprocessing record
keeps only the score. -/
lemma map_postprocess_score (X : Option (ℚ × (ℕ → ℕ → ℚ))) (r1 r2 : Img) (h w : ℕ) :
    ((X.map fun sf => postprocess r1 r2 sf.1 sf.2 h w).map fun r => r.score) =
      X.map Prod.fst := by
  cases X with
  | none => rfl
  | some sf => rfl

/-- Swapping the arguments of `compare_images` leaves the scalar score
component unchanged: the `min`-based resize, the failure conditions, and
the SSIM score are all symmetric. -/
lemma compareScore_symm (A B : Img) : compareScore A B = compareScore B A := by
  unfold compareScore compare_images resized1 resized2
  rw [minHeight_comm A B, minWidth_comm A B]
  by_cases hz : minHeight A B = 0 ∨ minWidth A B = 0
  · rw [if_pos hz, if_pos hz]
  · rw [if_neg hz, if_neg hz]
    rcases hA : bgr2gray (resizeImg (convBGR A) (minHeight A B) (minWidth A B)) with _ | gA
    · rcases hB : bgr2gray (resizeImg (convBGR B) (minHeight A B) (minWidth A B)) with _ | gB
      · simp only [Option.none_bind]
      · simp only [Option.none_bind, Option.some_bind]
    · rcases hB : bgr2gray (resizeImg (convBGR B) (minHeight A B) (minWidth A B)) with _ | gB
      · simp only [Option.none_bind, Option.some_bind]
      · simp only [Option.some_bind]
        rw [map_postprocess_score, map_postprocess_score]
        exact ssimFull_score_symm gA gB

/-! ### Failure characterisation of `compare_images` -/

/-- `bgr2gray` fails on the resized first image when the first input is
neither 3- nor 4-channel. -/
lemma bgr2gray_resized1_none (A B : Img) (hA : ¬(A.ch = 3 ∨ A.ch = 4)) :
    bgr2gray (resized1 A B) = none := by
  unfold bgr2gray
  rw [if_neg (by rw [resized1_ch]; exact hA)]

/-- `bgr2gray` fails on the resized second image when the second input is
neither 3- nor 4-channel. -/
lemma bgr2gray_resized2_none (A B : Img) (hB : ¬(B.ch = 3 ∨ B.ch = 4)) :
    bgr2gray (resized2 A B) = none := by
  unfold bgr2gray
  rw [if_neg (by rw [resized2_ch]; exact hB)]

/-- Any input outside the success conditions — a channel count `cvtColor`
rejects, or a common extent smaller than the 7×7 SSIM window — makes
`compare_images` return its failure value, with no partial result. -/
lemma compare_images_fail (A B : Img)
    (hbad : ¬((A.ch = 3 ∨ A.ch = 4) ∧ (B.ch = 3 ∨ B.ch = 4) ∧
      7 ≤ min A.h B.h ∧ 7 ≤ min A.w B.w)) :
    compare_images A B = none := by
  unfold compare_images
  by_cases hz : minHeight A B = 0 ∨ minWidth A B = 0
  · rw [if_pos hz]
  · rw [if_neg hz]
    by_cases hA : A.ch = 3 ∨ A.ch = 4
    · by_cases hB : B.ch = 3 ∨ B.ch = 4
      · rw [bgr2gray_resized1 A B hA, bgr2gray_resized2 A B hB]
        rw [Option.some_bind, Option.some_bind]
        have hdim : ¬(7 ≤ minHeight A B ∧ 7 ≤ minWidth A B) := by
          intro h7
          exact hbad ⟨hA, hB,
            by rw [← minHeight_eq]; exact h7.1,
            by rw [← minWidth_eq]; exact h7.2⟩
        unfold ssimFull
        rw [if_pos ⟨rfl, rfl⟩, if_neg (by exact hdim)]
        rfl
      · rcases hg1 : bgr2gray (resized1 A B) with _ | g1
        · rw [Option.none_bind]
        · rw [Option.some_bind, bgr2gray_resized2_none A B hB, Option.none_bind]
    · rw [bgr2gray_resized1_none A B hA, Option.none_bind]

/-! ### Batch orchestration lemmas -/

/-- A collected batch record always carries the filename it was built
from. -/
lemma batchEntryFor_filename (refs fields : List (String × Img)) (n : String) (e : BatchEntry)
    (he : batchEntryFor refs fields n = some e) : e.filename = n := by
  unfold batchEntryFor at he
  cases h1 : dictGet refs n with
  | none => rw [h1, Option.none_bind] at he; cases he
  | some ri =>
    rw [h1, Option.some_bind] at he
    cases h2 : dictGet fields n with
    | none => rw [h2, Option.none_bind] at he; cases he
    | some fi =>
      rw [h2, Option.some_bind] at he
      cases h3 : compare_images ri fi with
      | none => rw [h3, Option.map_none'] at he; cases he
      | some res =>
        rw [h3, Option.map_some'] at he
        injection he with he
        rw [← he]

/-- The filenames of the collected results are exactly the common names
whose comparison succeeded, in order: a failing pair is skipped, the rest
of the batch still runs. -/
lemma filterMap_names_filter (g : String → Option BatchEntry)
    (hg : ∀ n e, g n = some e → e.filename = n) :
    ∀ l : List String,
      (l.filterMap g).map (fun e => e.filename) = l.filter (fun n => (g n).isSome) := by
  intro l
  induction l with
  | nil => rfl
  | cons a l ih =>
    cases ha : g a with
    | none =>
      rw [List.filterMap_cons_none ha, List.filter_cons_of_neg (by simp [ha]), ih]
    | some e =>
      rw [List.filterMap_cons_some ha, List.map_cons, hg a e ha,
        List.filter_cons_of_pos (by simp [ha]), ih]

/-- The sorted common-name list is sorted. -/
lemma sortedCommon_sorted (refs fields : List (String × Img)) :
    List.Sorted (· ≤ ·) (sortedCommon refs fields) :=
  List.sorted_insertionSort _ _

/-- Membership in the sorted common-name list is exactly membership in
both dicts' key sets. -/
lemma mem_sortedCommon (refs fields : List (String × Img)) (n : String) :
    n ∈ sortedCommon refs fields ↔ n ∈ dictKeys refs ∧ n ∈ dictKeys fields := by
  unfold sortedCommon
  rw [List.mem_insertionSort, List.mem_filter, decide_eq_true_eq]

/-- Sorting does not change how many common names there are. -/
lemma sortedCommon_length (refs fields : List (String × Img)) :
    (sortedCommon refs fields).length =
      ((dictKeys refs).filter fun n => decide (n ∈ dictKeys fields)).length :=
  List.length_insertionSort _ _

/-- The batch result names are the succeeding common names, in order. -/
lemma batchResults_names (refs fields : List (String × Img)) :
    (batchResults refs fields).map (fun e => e.filename) =
      (sortedCommon refs fields).filter (fun n => pairSucceeds refs fields n) :=
  filterMap_names_filter _ (batchEntryFor_filename refs fields) _

/-! ### Session state-machine lemmas -/

lemma checkComplete_cursor (s : VState) :
    (checkComplete s).current_pair = s.current_pair := by
  unfold checkComplete; split <;> rfl

lemma checkComplete_decisions (s : VState) :
    (checkComplete s).decisions = s.decisions := by
  unfold checkComplete; split <;> rfl

lemma checkComplete_pairs (s : VState) :
    (checkComplete s).image_pairs = s.image_pairs := by
  unfold checkComplete; split <;> rfl

lemma checkComplete_flag (s : VState) :
    (checkComplete s).verification_complete =
      (decide (s.image_pairs.length ≤ s.current_pair) || s.verification_complete) := by
  unfold checkComplete
  split
  case isTrue hc => simp [hc]
  case isFalse hc => simp [hc]

/-- A button press below the pair count appends exactly the record of the
current pair and advances the cursor by one. -/
lemma recordDecision_lt (s : VState) (d : Decision) (t : String)
    (h : s.current_pair < s.image_pairs.length) :
    recordDecision s d t = { s with
      decisions := s.decisions ++ [⟨(s.image_pairs.get ⟨s.current_pair, h⟩).id, d, t⟩],
      current_pair := s.current_pair + 1 } := by
  unfold recordDecision
  rw [dif_pos h]

/-- A button press at or past the pair count is a no-op. -/
lemma recordDecision_ge (s : VState) (d : Decision) (t : String)
    (h : ¬ s.current_pair < s.image_pairs.length) :
    recordDecision s d t = s := by
  unfold recordDecision
  rw [dif_neg h]

/-- Running a full session: one decision per remaining pair drives the
cursor to the end, appends exactly the expected log, and sets the
completion flag (as soon as at least one step runs). -/
lemma runSession_spec :
    ∀ (inputs : List (Decision × String)) (s : VState),
      s.current_pair + inputs.length = s.image_pairs.length →
      (runSession s inputs).decisions =
          s.decisions ++ expectedLog (s.image_pairs.drop s.current_pair) inputs
        ∧ (runSession s inputs).current_pair = s.image_pairs.length
        ∧ (runSession s inputs).image_pairs = s.image_pairs
        ∧ (runSession s inputs).verification_complete =
            (s.verification_complete || !inputs.isEmpty) := by
  intro inputs
  induction inputs with
  | nil =>
    intro s hlen
    refine ⟨?_, ?_, rfl, ?_⟩
    · simp [runSession, expectedLog]
    · simpa [runSession] using hlen
    · simp [runSession]
  | cons dt inputs ih =>
    intro s hlen
    rw [List.length_cons] at hlen
    have hcur : s.current_pair < s.image_pairs.length := by omega
    have hrec : recordDecision s dt.1 dt.2 = { s with
        decisions := s.decisions ++ [⟨(s.image_pairs.get ⟨s.current_pair, hcur⟩).id, dt.1, dt.2⟩],
        current_pair := s.current_pair + 1 } := recordDecision_lt s dt.1 dt.2 hcur
    have hrun : runSession s (dt :: inputs) = runSession (vstep s dt.1 dt.2) inputs := rfl
    have hs1c : (vstep s dt.1 dt.2).current_pair = s.current_pair + 1 := by
      unfold vstep
      rw [hrec, checkComplete_cursor]
    have hs1d : (vstep s dt.1 dt.2).decisions =
        s.decisions ++ [⟨(s.image_pairs.get ⟨s.current_pair, hcur⟩).id, dt.1, dt.2⟩] := by
      unfold vstep
      rw [hrec, checkComplete_decisions]
    have hs1p : (vstep s dt.1 dt.2).image_pairs = s.image_pairs := by
      unfold vstep
      rw [hrec, checkComplete_pairs]
    have hs1f : (vstep s dt.1 dt.2).verification_complete =
        (decide (s.image_pairs.length ≤ s.current_pair + 1) || s.verification_complete) := by
      unfold vstep
      rw [hrec, checkComplete_flag]
    have hlen1 : (vstep s dt.1 dt.2).current_pair + inputs.length =
        (vstep s dt.1 dt.2).image_pairs.length := by
      rw [hs1c, hs1p]; omega
    obtain ⟨ihd, ihc, ihp, ihf⟩ := ih (vstep s dt.1 dt.2) hlen1
    have hdrop : s.image_pairs.drop s.current_pair =
        s.image_pairs[s.current_pair] :: s.image_pairs.drop (s.current_pair + 1) :=
      List.drop_eq_getElem_cons hcur
    refine ⟨?_, ?_, ?_, ?_⟩
    · rw [hrun, ihd, hs1d, hs1p, hs1c, hdrop]
      rw [List.append_assoc]
      congr 1
    · rw [hrun, ihc, hs1p]
    · rw [hrun, ihp, hs1p]
    · rw [hrun, ihf, hs1f]
      cases inputs with
      | nil =>
        simp only [List.length_nil] at hlen
        have hle : s.image_pairs.length ≤ s.current_pair + 1 := by omega
        simp [hle]
      | cons a l => simp

/-! ### File-pairing lemmas -/

/-- Classification of a file that has an image extension and contains
`'_original'`: it is an original, keyed by the part before the first
marker (this branch wins even when `'_proof'` also occurs). -/
lemma classify_original (f : String) (himg : isImageFile f = true)
    (ho : hasSub markerOriginal f.data = true) :
    classify f = some (⟨beforeFirst markerOriginal f.data⟩, Role.original) := by
  unfold classify
  rw [if_pos himg, if_pos ho]

/-- Classification of an image file containing `'_proof'` but not
`'_original'`. -/
lemma classify_proofShot (f : String) (himg : isImageFile f = true)
    (ho : hasSub markerOriginal f.data = false)
    (hp : hasSub markerProof f.data = true) :
    classify f = some (⟨beforeFirst markerProof f.data⟩, Role.proofShot) := by
  unfold classify
  rw [if_pos himg, if_neg (by rw [ho]; exact Bool.false_ne_true), if_pos hp]

/-- Every other file is ignored. -/
lemma classify_none (f : String)
    (h : isImageFile f = false ∨
      (hasSub markerOriginal f.data = false ∧ hasSub markerProof f.data = false)) :
    classify f = none := by
  unfold classify
  rcases h with h | ⟨h1, h2⟩
  · rw [if_neg (by rw [h]; exact Bool.false_ne_true)]
  · by_cases himg : isImageFile f = true
    · rw [if_pos himg, if_neg (by rw [h1]; exact Bool.false_ne_true),
        if_neg (by rw [h2]; exact Bool.false_ne_true)]
    · rw [if_neg himg]

/-- `insertClassified` keeps the dict invariant: every stored original or
proof filename was classified into exactly that role with exactly that
identifier. -/
lemma insertClassified_inv (P : String → Prop) (id : String) (ro : Role) (f : String)
    (hf : P f) (hcls : classify f = some (id, ro)) :
    ∀ m : List (String × RawPair),
      (∀ ke ∈ m,
        (∀ o, ke.2.original = some o → P o ∧ classify o = some (ke.1, Role.original)) ∧
        (∀ p, ke.2.proofShot = some p → P p ∧ classify p = some (ke.1, Role.proofShot))) →
      ∀ ke ∈ insertClassified m id ro f,
        (∀ o, ke.2.original = some o → P o ∧ classify o = some (ke.1, Role.original)) ∧
        (∀ p, ke.2.proofShot = some p → P p ∧ classify p = some (ke.1, Role.proofShot)) := by
  intro m
  induction m with
  | nil =>
    intro _ ke hke
    rw [insertClassified] at hke
    rw [List.mem_singleton] at hke
    subst hke
    cases ro with
    | original =>
      refine ⟨fun o ho => ?_, fun p hp => ?_⟩
      · injection ho with ho
        subst ho
        exact ⟨hf, hcls⟩
      · cases hp
    | proofShot =>
      refine ⟨fun o ho => ?_, fun p hp => ?_⟩
      · cases ho
      · injection hp with hp
        subst hp
        exact ⟨hf, hcls⟩
  | cons kv m ih =>
    intro hm ke hke
    rw [insertClassified] at hke
    by_cases hk : kv.1 = id
    · rw [if_pos hk] at hke
      rcases List.mem_cons.mp hke with hke | hke
      · subst hke
        have hkv := hm kv (List.mem_cons_self kv m)
        cases ro with
        | original =>
          refine ⟨fun o ho => ?_, fun p hp => ?_⟩
          · injection ho with ho
            subst ho
            rw [hk]
            exact ⟨hf, hcls⟩
          · exact hkv.2 p hp
        | proofShot =>
          refine ⟨fun o ho => ?_, fun p hp => ?_⟩
          · exact hkv.1 o ho
          · injection hp with hp
            subst hp
            rw [hk]
            exact ⟨hf, hcls⟩
      · exact hm ke (List.mem_cons_of_mem kv hke)
    · rw [if_neg hk] at hke
      rcases List.mem_cons.mp hke with hke | hke
      · subst hke
        exact hm kv (List.mem_cons_self kv m)
      · exact ih (fun ke' hke' => hm ke' (List.mem_cons_of_mem kv hke')) ke hke

/-- The classification loop establishes the dict invariant for the whole
listing. -/
lemma buildPairs_inv (files : List String) :
    ∀ ke ∈ buildPairs files,
      (∀ o, ke.2.original = some o →
        o ∈ files ∧ classify o = some (ke.1, Role.original)) ∧
      (∀ p, ke.2.proofShot = some p →
        p ∈ files ∧ classify p = some (ke.1, Role.proofShot)) := by
  unfold buildPairs
  suffices hgen : ∀ (l : List String) (P : String → Prop), (∀ f ∈ l, P f) →
      ∀ m : List (String × RawPair),
        (∀ ke ∈ m,
          (∀ o, ke.2.original = some o → P o ∧ classify o = some (ke.1, Role.original)) ∧
          (∀ p, ke.2.proofShot = some p → P p ∧ classify p = some (ke.1, Role.proofShot))) →
        ∀ ke ∈ l.foldl (fun m f =>
            match classify f with
            | some (id, ro) => insertClassified m id ro f
            | none => m) m,
          (∀ o, ke.2.original = some o → P o ∧ classify o = some (ke.1, Role.original)) ∧
          (∀ p, ke.2.proofShot = some p → P p ∧ classify p = some (ke.1, Role.proofShot)) by
    exact hgen files (fun f => f ∈ files) (fun f hf => hf) [] (by intro ke hke; cases hke)
  intro l
  induction l with
  | nil => intro P _ m hm ke hke; exact hm ke hke
  | cons a l ih =>
    intro P hP m hm ke hke
    rw [List.foldl_cons] at hke
    cases hcls : classify a with
    | none =>
      rw [hcls] at hke
      exact ih P (fun f hf => hP f (List.mem_cons_of_mem a hf)) m hm ke hke
    | some v =>
      rw [hcls] at hke
      exact ih P (fun f hf => hP f (List.mem_cons_of_mem a hf))
        (insertClassified m v.1 v.2 a)
        (insertClassified_inv P v.1 v.2 a (hP a (List.mem_cons_self a l))
          (by rw [hcls]) m hm)
        ke hke

/-- Every pair returned by `get_image_pairs` is assembled from two listed
files that classify as original and proof of the same identifier, with the
folder path joined on. -/
lemma get_image_pairs_spec (folder : String) (files : List String) (p : ImagePair)
    (hp : p ∈ get_image_pairs folder files) :
    ∃ fo fq, fo ∈ files ∧ fq ∈ files ∧
      classify fo = some (p.id, Role.original) ∧
      classify fq = some (p.id, Role.proofShot) ∧
      p.original = pathJoin folder fo ∧ p.proofShot = pathJoin folder fq := by
  unfold get_image_pairs at hp
  rw [List.mem_filterMap] at hp
  obtain ⟨ke, hke, hmk⟩ := hp
  have hinv := buildPairs_inv files ke hke
  cases ho : ke.2.original with
  | none => rw [ho] at hmk; cases hmk
  | some o =>
    cases hq : ke.2.proofShot with
    | none => rw [ho, hq] at hmk; cases hmk
    | some q =>
      rw [ho, hq] at hmk
      injection hmk with hmk
      subst hmk
      obtain ⟨hfo, hco⟩ := hinv.1 o ho
      obtain ⟨hfq, hcq⟩ := hinv.2 q hq
      exact ⟨o, q, hfo, hfq, hco, hcq, rfl, rfl⟩

/-! ### Claim theorems -/

/-- C1 (amended): for every pair of images that decode to 3- or 4-channel
pixel arrays and whose widths and heights are all at least 7 (the SSIM
window size), `compare_images` does not fail, both normalized output images
have width `min` of the input widths and height `min` of the input
heights, and the score is the SSIM computed on the single-channel grayscale
versions of those resized images. -/
theorem C1_normalized_dimensions (A B : Img)
    (hA : A.ch = 3 ∨ A.ch = 4) (hB : B.ch = 3 ∨ B.ch = 4)
    (hhA : 7 ≤ A.h) (hhB : 7 ≤ B.h) (hwA : 7 ≤ A.w) (hwB : 7 ≤ B.w) :
    ∃ res, compare_images A B = some res
      ∧ res.img1.h = min A.h B.h ∧ res.img1.w = min A.w B.w
      ∧ res.img2.h = min A.h B.h ∧ res.img2.w = min A.w B.w
      ∧ bgr2gray (resized1 A B) = some (grayImg (resized1 A B))
      ∧ bgr2gray (resized2 A B) = some (grayImg (resized2 A B))
      ∧ (grayImg (resized1 A B)).ch = 1 ∧ (grayImg (resized2 A B)).ch = 1
      ∧ res.score = mssim (px0 (grayImg (resized1 A B))) (px0 (grayImg (resized2 A B)))
          (min A.h B.h) (min A.w B.w) := by
  have hh : 7 ≤ minHeight A B := by rw [minHeight_eq]; exact le_min hhA hhB
  have hw : 7 ≤ minWidth A B := by rw [minWidth_eq]; exact le_min hwA hwB
  refine ⟨_, compare_success A B hA hB hh hw, ?_, ?_, ?_, ?_,
    bgr2gray_resized1 A B hA, bgr2gray_resized2 A B hB, rfl, rfl, ?_⟩
  · rw [postprocess_img1, bgr2rgbOut_h, resized1_h, minHeight_eq]
  · rw [postprocess_img1, bgr2rgbOut_w, resized1_w, minWidth_eq]
  · rw [postprocess_img2, bgr2rgbOut_h, resized2_h, minHeight_eq]
  · rw [postprocess_img2, bgr2rgbOut_w, resized2_w, minWidth_eq]
  · rw [postprocess_score, minHeight_eq, minWidth_eq]

/-- C1 witness: a concrete 3-channel 7×7 pair satisfies the amended
claim. -/
theorem C1_witness :
    ∃ res, compare_images colorOk colorOk = some res
      ∧ res.img1.h = min colorOk.h colorOk.h ∧ res.img1.w = min colorOk.w colorOk.w
      ∧ res.img2.h = min colorOk.h colorOk.h ∧ res.img2.w = min colorOk.w colorOk.w
      ∧ bgr2gray (resized1 colorOk colorOk) = some (grayImg (resized1 colorOk colorOk))
      ∧ bgr2gray (resized2 colorOk colorOk) = some (grayImg (resized2 colorOk colorOk))
      ∧ (grayImg (resized1 colorOk colorOk)).ch = 1
      ∧ (grayImg (resized2 colorOk colorOk)).ch = 1
      ∧ res.score = mssim (px0 (grayImg (resized1 colorOk colorOk)))
          (px0 (grayImg (resized2 colorOk colorOk)))
          (min colorOk.h colorOk.h) (min colorOk.w colorOk.w) :=
  C1_normalized_dimensions colorOk colorOk (Or.inl rfl) (Or.inl rfl)
    (by decide) (by decide) (by decide) (by decide)

/-- C1 counterexample: the claim as stated fails on the code.  A
pixel-for-pixel identical pair of decodable single-channel (2-D) grayscale
images makes `compare_images` fail (BGR→GRAY rejects 2-D arrays), and so
does a 3-channel pair smaller than the 7×7 SSIM window. -/
theorem C1_counterexample :
    compare_images gray8 gray8 = none ∧ compare_images tinyColor tinyColor = none :=
  ⟨compare_images_fail gray8 gray8 (by decide),
    compare_images_fail tinyColor tinyColor (by decide)⟩

/-- C2 (amended): for every image that decodes to a 3- or 4-channel array
at least 7×7, comparing it with itself yields score exactly 1, an empty
difference-region list, and an annotated image identical to the (unmarked)
second output image. -/
theorem C2_identical_images (I : Img) (hch : I.ch = 3 ∨ I.ch = 4)
    (hh : 7 ≤ I.h) (hw : 7 ≤ I.w) :
    ∃ res, compare_images I I = some res ∧ res.score = 1 ∧ res.regions = []
      ∧ res.annotated = res.img2 :=
  ⟨_, compare_self I hch hh hw, rfl, rfl, rfl⟩

/-- C2 witness: the concrete 7×7 colour image compared with itself. -/
theorem C2_witness :
    ∃ res, compare_images colorOk colorOk = some res ∧ res.score = 1
      ∧ res.regions = [] ∧ res.annotated = res.img2 :=
  C2_identical_images colorOk (Or.inl rfl) (by decide) (by decide)

/-- C2 counterexample: the claim as stated ("for every decodable image")
fails on the code: a decodable 2-D grayscale image compared with itself
does not return a score of 1.0 — the comparison fails entirely. -/
theorem C2_counterexample :
    ¬ ∃ res, compare_images gray9 gray9 = some res ∧ res.score = 1
      ∧ res.regions = [] := by
  rintro ⟨res, heq, -, -⟩
  rw [compare_images_fail gray9 gray9 (by decide)] at heq
  cases heq

/-- C3: the scalar score returned by `compare_images` is unchanged when
the two arguments are swapped — including through the failure cases, which
are themselves symmetric. -/
theorem C3_score_symmetric (A B : Img) : compareScore A B = compareScore B A :=
  compareScore_symm A B

/-- C4: the batch orchestrator compares exactly the identifiers present
in both collections, in sorted order; identifiers in only one collection
are silently excluded; when every comparison succeeds the result count is
the size of the key intersection. -/
theorem C4_batch_intersection (refs fields : List (String × Img))
    (hsucc : ∀ n ∈ sortedCommon refs fields, pairSucceeds refs fields n = true) :
    (batchResults refs fields).map (fun e => e.filename) = sortedCommon refs fields
    ∧ List.Sorted (· ≤ ·) (sortedCommon refs fields)
    ∧ (∀ n, n ∈ sortedCommon refs fields ↔ n ∈ dictKeys refs ∧ n ∈ dictKeys fields)
    ∧ (batchResults refs fields).length =
        ((dictKeys refs).filter fun n => decide (n ∈ dictKeys fields)).length := by
  have hnames := batchResults_names refs fields
  have hfil : (sortedCommon refs fields).filter (fun n => pairSucceeds refs fields n) =
      sortedCommon refs fields := List.filter_eq_self.mpr hsucc
  rw [hfil] at hnames
  refine ⟨hnames, sortedCommon_sorted refs fields, mem_sortedCommon refs fields, ?_⟩
  calc (batchResults refs fields).length
      = ((batchResults refs fields).map (fun e => e.filename)).length :=
        (List.length_map _ _).symm
    _ = (sortedCommon refs fields).length := by rw [hnames]
    _ = _ := sortedCommon_length refs fields

/-- The sorted common names of the {A,B,C} / {B,C,D} example. -/
lemma sortedCommon_ABC : sortedCommon refsABC fieldsBCD = ["B", "C"] := by
  have hBC : ("B" : String) ≤ "C" := le_of_lt (String.lt_iff_toList_lt.mpr (by decide))
  unfold sortedCommon
  have hfil : (dictKeys refsABC).filter (fun n => decide (n ∈ dictKeys fieldsBCD)) =
      ["B", "C"] := by decide
  rw [hfil]
  simp only [List.insertionSort, List.orderedInsert_nil]
  exact List.orderedInsert_of_le _ _ hBC

/-- Every common name of the example compares successfully. -/
lemma pairSucceeds_ABC :
    ∀ n ∈ sortedCommon refsABC fieldsBCD, pairSucceeds refsABC fieldsBCD n = true := by
  intro n hn
  have hok := compare_self colorOk (Or.inl rfl) (by decide) (by decide)
  rw [sortedCommon_ABC] at hn
  rcases List.mem_cons.mp hn with rfl | hn
  · unfold pairSucceeds batchEntryFor
    rw [show dictGet refsABC "B" = some colorOk from rfl, Option.some_bind,
      show dictGet fieldsBCD "B" = some colorOk from rfl, Option.some_bind,
      hok, Option.map_some']
    rfl
  rcases List.mem_cons.mp hn with rfl | hn
  · unfold pairSucceeds batchEntryFor
    rw [show dictGet refsABC "C" = some colorOk from rfl, Option.some_bind,
      show dictGet fieldsBCD "C" = some colorOk from rfl, Option.some_bind,
      hok, Option.map_some']
    rfl
  cases hn

/-- C4 witness: reference identifiers {A,B,C} and field identifiers
{B,C,D} — exactly {B,C} are compared and the result count is 2. -/
theorem C4_witness :
    (batchResults refsABC fieldsBCD).map (fun e => e.filename) = ["B", "C"]
    ∧ (batchResults refsABC fieldsBCD).length = 2 := by
  obtain ⟨h1, -, -, h4⟩ := C4_batch_intersection refsABC fieldsBCD pairSucceeds_ABC
  constructor
  · rw [h1, sortedCommon_ABC]
  · rw [h4]
    decide

/-- C5: the display classifier labels high exactly above 0.8, medium
exactly on (0.6, 0.8], low exactly at or below 0.6, while the batch match
cutoff is a distinct `> 0.75`; a score in (0.75, 0.8] is counted as
matching but displayed as medium. -/
theorem C5_dual_thresholds (s : ℚ) :
    (get_similarity_class s = "similarity-high" ↔ 4/5 < s)
    ∧ (get_similarity_class s = "similarity-medium" ↔ (3/5 < s ∧ s ≤ 4/5))
    ∧ (get_similarity_class s = "similarity-low" ↔ s ≤ 3/5)
    ∧ (isBatchMatch s = true ↔ 3/4 < s)
    ∧ (3/4 < s ∧ s ≤ 4/5 →
        isBatchMatch s = true ∧ get_similarity_class s = "similarity-medium") := by
  unfold get_similarity_class isBatchMatch
  by_cases h1 : 4/5 < s
  · rw [if_pos h1]
    refine ⟨⟨fun _ => h1, fun _ => rfl⟩,
      ⟨fun hs => absurd hs (by decide), fun hs => absurd h1 (not_lt.mpr hs.2)⟩,
      ⟨fun hs => absurd hs (by decide), fun hs => absurd h1 (not_lt.mpr (by linarith))⟩,
      ⟨of_decide_eq_true, decide_eq_true⟩,
      fun hs => absurd h1 (not_lt.mpr hs.2)⟩
  · rw [if_neg h1]
    by_cases h2 : 3/5 < s
    · rw [if_pos h2]
      refine ⟨⟨fun hs => absurd hs (by decide), fun hs => absurd hs h1⟩,
        ⟨fun _ => ⟨h2, not_lt.mp h1⟩, fun _ => rfl⟩,
        ⟨fun hs => absurd hs (by decide), fun hs => absurd h2 (not_lt.mpr hs)⟩,
        ⟨of_decide_eq_true, decide_eq_true⟩,
        fun hs => ⟨decide_eq_true hs.1, rfl⟩⟩
    · rw [if_neg h2]
      refine ⟨⟨fun hs => absurd hs (by decide), fun hs => absurd hs h1⟩,
        ⟨fun hs => absurd hs (by decide), fun hs => absurd hs.1 h2⟩,
        ⟨fun _ => not_lt.mp h2, fun _ => rfl⟩,
        ⟨of_decide_eq_true, decide_eq_true⟩,
        fun hs => absurd (lt_trans (by norm_num) hs.1) h2⟩

/-- C5 witness: score 0.76 is a batch match but displays as medium. -/
theorem C5_witness :
    isBatchMatch (19/25) = true ∧ get_similarity_class (19/25) = "similarity-medium" :=
  (C5_dual_thresholds (19/25)).2.2.2.2 ⟨by norm_num, by norm_num⟩

/-- C6: recording any decision appends exactly one record (carrying the
current pair's identifier) and advances the cursor by one, regardless of
the decision value; after one decision per pair of an N-pair folder the
session is complete, the log has length N, and the log order matches the
pair (cursor) order. -/
theorem C6_decision_log :
    (∀ (s : VState) (d : Decision) (t : String)
        (h : s.current_pair < s.image_pairs.length),
      (recordDecision s d t).decisions =
          s.decisions ++ [⟨(s.image_pairs.get ⟨s.current_pair, h⟩).id, d, t⟩]
        ∧ (recordDecision s d t).current_pair = s.current_pair + 1)
    ∧ (∀ (folder : String) (files : List String) (inputs : List (Decision × String)),
        inputs.length = (get_image_pairs folder files).length →
        (runSession (resetState folder files) inputs).decisions =
            expectedLog (get_image_pairs folder files) inputs
          ∧ (runSession (resetState folder files) inputs).decisions.length =
              (get_image_pairs folder files).length
          ∧ ((runSession (resetState folder files) inputs).decisions.map
              (fun r => r.property_id)) =
              (get_image_pairs folder files).map (fun p => p.id)
          ∧ (runSession (resetState folder files) inputs).current_pair =
              (get_image_pairs folder files).length
          ∧ (0 < (get_image_pairs folder files).length →
              (runSession (resetState folder files) inputs).verification_complete = true)) := by
  constructor
  · intro s d t h
    rw [recordDecision_lt s d t h]
    exact ⟨rfl, rfl⟩
  · intro folder files inputs hlen
    obtain ⟨hd, hc, -, hf⟩ := runSession_spec inputs (resetState folder files)
      (by simpa [resetState] using hlen)
    have hd' : (runSession (resetState folder files) inputs).decisions =
        expectedLog (get_image_pairs folder files) inputs := by
      rw [hd]
      simp only [resetState, List.drop_zero, List.nil_append]
    have hel : (expectedLog (get_image_pairs folder files) inputs).length =
        (get_image_pairs folder files).length := by
      unfold expectedLog
      rw [List.length_map, List.length_zip, hlen, min_self]
    refine ⟨hd', by rw [hd', hel], ?_, by simpa [resetState] using hc, ?_⟩
    · rw [hd']
      unfold expectedLog
      rw [List.map_map]
      have hmm : ((get_image_pairs folder files).zip inputs).map
          ((fun r => r.property_id) ∘ fun pi => (⟨pi.1.id, pi.2.1, pi.2.2⟩ : DecisionRecord)) =
          ((get_image_pairs folder files).zip inputs).map (fun pi => pi.1.id) := rfl
      rw [hmm]
      have : ((get_image_pairs folder files).zip inputs).map (fun pi => pi.1.id) =
          (((get_image_pairs folder files).zip inputs).map Prod.fst).map (fun p => p.id) := by
        rw [List.map_map]
        rfl
      rw [this, List.map_fst_zip _ _ (le_of_eq hlen.symm)]
    · intro hpos
      rw [hf]
      cases inputs with
      | nil =>
        rw [List.length_nil] at hlen
        omega
      | cons a l => simp

/-- C6 witness: a folder with one valid pair, one decision recorded. -/
theorem C6_witness :
    (runSession (resetState "d" files6) inputs6).decisions.length = 1
    ∧ ((runSession (resetState "d" files6) inputs6).decisions.map
        (fun r => r.property_id)) = ["12"]
    ∧ (runSession (resetState "d" files6) inputs6).verification_complete = true := by
  obtain ⟨-, h2, h3, -, h5⟩ := C6_decision_log.2 "d" files6 inputs6 (by decide)
  refine ⟨?_, ?_, h5 (by decide)⟩
  · rw [h2]
    decide
  · rw [h3]
    decide

/-- C7: the completion flag is set exactly when the cursor has reached the
pair count; once it has, decision steps no longer change the cursor, the
log, or the pair list; supplying a new folder resets the cursor to 0 and
clears the log. -/
theorem C7_terminal_complete :
    (∀ s : VState, s.current_pair ≤ s.image_pairs.length →
        s.verification_complete = false →
        ((checkComplete s).verification_complete = true ↔
          s.current_pair = s.image_pairs.length))
    ∧ (∀ (s : VState) (d : Decision) (t : String),
        s.image_pairs.length ≤ s.current_pair →
        (vstep s d t).current_pair = s.current_pair
        ∧ (vstep s d t).decisions = s.decisions
        ∧ (vstep s d t).image_pairs = s.image_pairs)
    ∧ (∀ (folder : String) (files : List String),
        (resetState folder files).current_pair = 0
        ∧ (resetState folder files).decisions = []) := by
  refine ⟨?_, ?_, fun folder files => ⟨rfl, rfl⟩⟩
  · intro s hle hflag
    rw [checkComplete_flag, hflag, Bool.or_false, decide_eq_true_eq]
    omega
  · intro s d t hge
    have hrec : recordDecision s d t = s := recordDecision_ge s d t (by omega)
    unfold vstep
    rw [hrec]
    exact ⟨checkComplete_cursor s, checkComplete_decisions s, checkComplete_pairs s⟩

/-- C7 witness: a completed one-pair session accepts no further decisions
and the reset state is empty. -/
theorem C7_witness :
    ((checkComplete doneState).verification_complete = true ↔
        doneState.current_pair = doneState.image_pairs.length)
    ∧ (vstep doneState Decision.yes "t").decisions = doneState.decisions
    ∧ (resetState "d" files6).current_pair = 0 := by
  obtain ⟨h1, h2, h3⟩ := C7_terminal_complete
  exact ⟨h1 doneState (by decide) (by decide),
    (h2 doneState Decision.yes "t" (by decide)).2.1,
    (h3 "d" files6).1⟩

/-- C8: inputs the pipeline cannot process give the typed failure value
`none`, which carries no score, no normalized image, and no annotated
image; in batch mode the collected filenames are exactly the common names
whose comparison succeeded — a failing pair is skipped while the rest of
the batch still runs, and the aggregate total counts only successes. -/
theorem C8_failure_skipping :
    (∀ A B : Img,
      ¬((A.ch = 3 ∨ A.ch = 4) ∧ (B.ch = 3 ∨ B.ch = 4) ∧
          7 ≤ min A.h B.h ∧ 7 ≤ min A.w B.w) →
      compare_images A B = none)
    ∧ (∀ refs fields : List (String × Img),
        (batchResults refs fields).map (fun e => e.filename) =
          (sortedCommon refs fields).filter (fun n => pairSucceeds refs fields n)
        ∧ batchTotal refs fields =
            ((sortedCommon refs fields).filter
              (fun n => pairSucceeds refs fields n)).length) := by
  refine ⟨compare_images_fail, fun refs fields => ⟨batchResults_names refs fields, ?_⟩⟩
  unfold batchTotal
  rw [← batchResults_names refs fields, List.length_map]

/-- C8 witness: a 2-channel (`LA`) image cannot be processed and yields
the failure value. -/
theorem C8_witness : compare_images imgLA colorOk = none :=
  C8_failure_skipping.1 imgLA colorOk (by decide)

/-- C9: with a non-empty common-name set the summary — including the
percentage `matched/total*100` — is computed unconditionally, even when
every comparison failed and `total = 0`: the division is not guarded (in
Python this state raises `ZeroDivisionError`). -/
theorem C9_unguarded_percentage :
    sortedCommon refsBad fieldsBad ≠ []
    ∧ batchResults refsBad fieldsBad = []
    ∧ batchTotal refsBad fieldsBad = 0
    ∧ (batchSummary refsBad fieldsBad).isSome = true := by
  have hfail : compare_images gray9 gray9 = none :=
    compare_images_fail gray9 gray9 (by decide)
  have hcommon : sortedCommon refsBad fieldsBad = ["x"] := rfl
  have hentry : batchEntryFor refsBad fieldsBad "x" = none := by
    unfold batchEntryFor
    rw [show dictGet refsBad "x" = some gray9 from rfl, Option.some_bind,
      show dictGet fieldsBad "x" = some gray9 from rfl, Option.some_bind,
      hfail, Option.map_none']
  have hres : batchResults refsBad fieldsBad = [] := by
    unfold batchResults
    rw [hcommon, List.filterMap_cons_none hentry, List.filterMap_nil]
  refine ⟨by rw [hcommon]; exact List.cons_ne_nil "x" [], hres, ?_, ?_⟩
  · unfold batchTotal
    rw [hres]
    rfl
  · unfold batchSummary
    rw [if_neg (by rw [hcommon]; exact List.cons_ne_nil "x" [])]
    rfl

/-- C10: a listed file is classified deterministically into at most one
role — image extension required, `'_original'` takes precedence over
`'_proof'`, identifier is the part before the first marker occurrence —
and every returned pair holds an original path and a proof path of the
same identifier, both assembled from listed files. -/
theorem C10_pairing :
    (∀ f : String, isImageFile f = true → hasSub markerOriginal f.data = true →
      classify f = some (⟨beforeFirst markerOriginal f.data⟩, Role.original))
    ∧ (∀ f : String, isImageFile f = true → hasSub markerOriginal f.data = false →
        hasSub markerProof f.data = true →
        classify f = some (⟨beforeFirst markerProof f.data⟩, Role.proofShot))
    ∧ (∀ f : String, isImageFile f = false ∨
        (hasSub markerOriginal f.data = false ∧ hasSub markerProof f.data = false) →
        classify f = none)
    ∧ (∀ (folder : String) (files : List String) (p : ImagePair),
        p ∈ get_image_pairs folder files →
        ∃ fo fq, fo ∈ files ∧ fq ∈ files ∧
          classify fo = some (p.id, Role.original) ∧
          classify fq = some (p.id, Role.proofShot) ∧
          p.original = pathJoin folder fo ∧ p.proofShot = pathJoin folder fq) :=
  ⟨classify_original, classify_proofShot, classify_none, get_image_pairs_spec⟩

/-- C10 witness: the pair with identifier `12` from the concrete listing
is assembled from its two listed files (`88_original_proof.png`, which
contains both markers, is classified as an original only and produces no
pair). -/
theorem C10_witness :
    ∃ fo fq, fo ∈ files6 ∧ fq ∈ files6 ∧
      classify fo = some (pair12.id, Role.original) ∧
      classify fq = some (pair12.id, Role.proofShot) ∧
      pair12.original = pathJoin "d" fo ∧ pair12.proofShot = pathJoin "d" fq :=
  C10_pairing.2.2.2 "d" files6 pair12 (by decide)

end PhotoCmp

